import Mathlib

/-!
# Verification of the usage/budget accounting subsystem

A shallow embedding of the `UsageTracker` class (`bot/usage.py`) and the
`SupabaseClient` gateway wrapper (`bot/databases/supabase_client.py`) of the
chatgpt-telegram-bot repository, together with theorems settling the claims
of the specification about the cost ledger, the usage-history store, the
pricing code, and the user-settings store.

Modelling conventions:
* Monetary amounts and stored quantities are rationals (`ℚ`); Python's
  decimal literals are parsed exactly.
* Python exceptions are modelled with `Option`/`Except`: a `none`/`.error`
  result stands for an exception propagating out of the modelled code with
  no state written.
* Python dictionaries are association lists with unique keys; dictionary
  assignment is `setKey`, lookup with default is `List.lookup` + `getD`.
* `datetime.date` values are `Date` triples; `date.isoformat()` is the
  zero-padded `YYYY-MM-DD` rendering; Python string slicing `s[:n]` is
  `strSlice`, `str.startswith` is `startswith`, and string indexing `s[i]`
  (which yields a one-character string) is `strIndex`.
-/

set_option maxHeartbeats 1000000

namespace UsageSpec

/-! ## Calendar dates and ISO formatting -/

/-- A calendar date, as carried by Python's `datetime.date`. -/
structure Date where
  year : Nat
  month : Nat
  day : Nat
deriving DecidableEq, Repr

/-- Validity bounds of a Python `datetime.date` (year 1..9999, real month
and day ranges). Only the digit-count bounds matter for formatting. -/
def Date.Valid (d : Date) : Prop :=
  1 ≤ d.year ∧ d.year ≤ 9999 ∧ 1 ≤ d.month ∧ d.month ≤ 12 ∧ 1 ≤ d.day ∧ d.day ≤ 31

instance (d : Date) : Decidable d.Valid := by unfold Date.Valid; infer_instance

/-- `date.isoformat()`: the zero-padded 10-character `YYYY-MM-DD` string. -/
def Date.isoformat (d : Date) : String :=
  ⟨[Nat.digitChar (d.year / 1000 % 10), Nat.digitChar (d.year / 100 % 10),
    Nat.digitChar (d.year / 10 % 10), Nat.digitChar (d.year % 10), '-',
    Nat.digitChar (d.month / 10 % 10), Nat.digitChar (d.month % 10), '-',
    Nat.digitChar (d.day / 10 % 10), Nat.digitChar (d.day % 10)]⟩

/-- Python string slicing `s[:n]`. -/
def strSlice (s : String) (n : Nat) : String := ⟨s.data.take n⟩

/-- Python `s.startswith(p)`. -/
def startswith (s p : String) : Bool := decide (s.data.take p.data.length = p.data)

/-- Python string indexing `s[i]` (a one-character string; `none` models the
`IndexError` raised when `i` is out of range). -/
def strIndex (s : String) (i : Nat) : Option Char := s.data.get? i

theorem digitChar_inj_aux :
    ∀ a < 10, ∀ b < 10, Nat.digitChar a = Nat.digitChar b → a = b := by decide

theorem string_mk_data (l : List Char) : (String.mk l).data = l := rfl

theorem take7_of_ten (c1 c2 c3 c4 c5 c6 c7 c8 c9 c10 : Char) :
    ([c1, c2, c3, c4, c5, c6, c7, c8, c9, c10].take 7) = [c1, c2, c3, c4, c5, c6, c7] := rfl

theorem Date.isoformat_inj {a b : Date} (ha : a.Valid) (hb : b.Valid)
    (h : a.isoformat = b.isoformat) : a = b := by
  obtain ⟨_, ha2, _, ha4, _, ha6⟩ := ha
  obtain ⟨_, hb2, _, hb4, _, hb6⟩ := hb
  have h' := congrArg String.data h
  simp only [Date.isoformat, string_mk_data, List.cons.injEq, and_true] at h'
  obtain ⟨e1, e2, e3, e4, _, e5, e6, _, e7, e8⟩ := h'
  have d1 := digitChar_inj_aux _ (Nat.mod_lt _ (by omega)) _ (Nat.mod_lt _ (by omega)) e1
  have d2 := digitChar_inj_aux _ (Nat.mod_lt _ (by omega)) _ (Nat.mod_lt _ (by omega)) e2
  have d3 := digitChar_inj_aux _ (Nat.mod_lt _ (by omega)) _ (Nat.mod_lt _ (by omega)) e3
  have d4 := digitChar_inj_aux _ (Nat.mod_lt _ (by omega)) _ (Nat.mod_lt _ (by omega)) e4
  have d5 := digitChar_inj_aux _ (Nat.mod_lt _ (by omega)) _ (Nat.mod_lt _ (by omega)) e5
  have d6 := digitChar_inj_aux _ (Nat.mod_lt _ (by omega)) _ (Nat.mod_lt _ (by omega)) e6
  have d7 := digitChar_inj_aux _ (Nat.mod_lt _ (by omega)) _ (Nat.mod_lt _ (by omega)) e7
  have d8 := digitChar_inj_aux _ (Nat.mod_lt _ (by omega)) _ (Nat.mod_lt _ (by omega)) e8
  obtain ⟨ay, am, ad⟩ := a
  obtain ⟨by', bm, bd⟩ := b
  simp only [Date.mk.injEq]
  simp only at ha2 ha4 ha6 hb2 hb4 hb6 d1 d2 d3 d4 d5 d6 d7 d8
  omega

/-- The first seven characters of an ISO date determine, and are determined
by, the year-month pair (for valid dates). -/
theorem Date.isoformat_slice7_eq_iff {a b : Date} (ha : a.Valid) (hb : b.Valid) :
    strSlice a.isoformat 7 = strSlice b.isoformat 7 ↔
      a.year = b.year ∧ a.month = b.month := by
  obtain ⟨_, ha2, _, ha4, _⟩ := ha
  obtain ⟨_, hb2, _, hb4, _⟩ := hb
  constructor
  · intro h
    have h' := congrArg String.data h
    simp only [Date.isoformat, strSlice, string_mk_data, take7_of_ten,
      List.cons.injEq, and_true] at h'
    obtain ⟨e1, e2, e3, e4, _, e5, e6⟩ := h'
    have d1 := digitChar_inj_aux _ (Nat.mod_lt _ (by omega)) _ (Nat.mod_lt _ (by omega)) e1
    have d2 := digitChar_inj_aux _ (Nat.mod_lt _ (by omega)) _ (Nat.mod_lt _ (by omega)) e2
    have d3 := digitChar_inj_aux _ (Nat.mod_lt _ (by omega)) _ (Nat.mod_lt _ (by omega)) e3
    have d4 := digitChar_inj_aux _ (Nat.mod_lt _ (by omega)) _ (Nat.mod_lt _ (by omega)) e4
    have d5 := digitChar_inj_aux _ (Nat.mod_lt _ (by omega)) _ (Nat.mod_lt _ (by omega)) e5
    have d6 := digitChar_inj_aux _ (Nat.mod_lt _ (by omega)) _ (Nat.mod_lt _ (by omega)) e6
    omega
  · rintro ⟨h1, h2⟩
    simp [Date.isoformat, strSlice, string_mk_data, take7_of_ten, h1, h2]

/-! ## Python numeric primitives -/

/-- Python `int()` applied to a numeric value: truncation toward zero
(`num tdiv den` on the reduced fraction). -/
def pyInt (q : ℚ) : ℤ := q.num.tdiv q.den

/-- Bankers' rounding of a rational to the nearest integer
(round-half-to-even, the behaviour of Python's builtin `round`). -/
def roundHalfEven (q : ℚ) : ℤ :=
  if q - ⌊q⌋ < 1/2 then ⌊q⌋
  else if 1/2 < q - ⌊q⌋ then ⌊q⌋ + 1
  else if 2 ∣ ⌊q⌋ then ⌊q⌋ else ⌊q⌋ + 1

/-- Python `round(q, n)`: bankers' rounding to `n` decimal digits. -/
def pyRound (q : ℚ) (n : Nat) : ℚ := (roundHalfEven (q * 10 ^ n) : ℚ) / 10 ^ n

theorem pyInt_of_nonneg {q : ℚ} (h : 0 ≤ q) : pyInt q = ⌊q⌋ := by
  rw [pyInt, Rat.floor_def, Int.tdiv_eq_ediv (Rat.num_nonneg.mpr h) (Int.ofNat_nonneg _)]

theorem pyInt_of_nonpos {q : ℚ} (h : q ≤ 0) : pyInt q = ⌈q⌉ := by
  have hn : q.num ≤ 0 := Rat.num_nonpos.mpr h
  have : pyInt q = -((-q).num.tdiv (-q).den) := by
    simp [pyInt, Rat.neg_num, Rat.neg_den, Int.neg_tdiv]
  rw [this, show ((-q).num.tdiv (-q).den) = pyInt (-q) from rfl,
    pyInt_of_nonneg (by linarith), ← Int.ceil_neg, neg_neg]

theorem pyRound_zero (n : Nat) : pyRound 0 n = 0 := by
  simp [pyRound, roundHalfEven]

theorem pyRound_eq_of_lt {q v : ℚ} {n : Nat} {f : ℤ}
    (harg : q * 10 ^ n = v) (hfl : ⌊v⌋ = f) (hlt : v - (f : ℚ) < 1/2) :
    pyRound q n = (f : ℚ) / 10 ^ n := by
  rw [pyRound, harg, roundHalfEven, hfl, if_pos hlt]

theorem pyRound_eq_of_gt {q v : ℚ} {n : Nat} {f : ℤ}
    (harg : q * 10 ^ n = v) (hfl : ⌊v⌋ = f) (hgt : 1/2 < v - (f : ℚ)) :
    pyRound q n = ((f : ℚ) + 1) / 10 ^ n := by
  rw [pyRound, harg, roundHalfEven, hfl, if_neg (by linarith), if_pos hgt]
  push_cast
  ring

/-! ## Python dictionaries as association lists -/

/-- Membership test `k in m` on a Python dictionary. -/
def hasKey {β : Type} (m : List (String × β)) (k : String) : Bool :=
  match m with
  | [] => false
  | p :: t => if p.1 = k then true else hasKey t k

/-- Python dictionary lookup `m.get(k)` (first — and, with unique keys,
only — entry for `k`). -/
def lookupKey {β : Type} (m : List (String × β)) (k : String) : Option β :=
  match m with
  | [] => none
  | p :: t => if p.1 = k then some p.2 else lookupKey t k

/-- Python dictionary assignment `m[k] = v`: overwrite the existing entry in
place, or append a new entry at the end. -/
def setKey {β : Type} (m : List (String × β)) (k : String) (v : β) : List (String × β) :=
  if hasKey m k then
    m.map (fun p => if p.1 = k then (k, v) else p)
  else m ++ [(k, v)]

theorem lookupKey_append_cases {β : Type} (m m' : List (String × β)) (k : String) :
    lookupKey (m ++ m') k =
      (match lookupKey m k with
       | some v => some v
       | none => lookupKey m' k) := by
  induction m with
  | nil => simp [lookupKey]
  | cons p t ih => by_cases hp : p.1 = k <;> simp [lookupKey, hp, ih]

theorem lookupKey_overwrite {β : Type} (m : List (String × β)) (k : String) (v : β)
    (hm : hasKey m k = true) :
    lookupKey (m.map (fun p => if p.1 = k then (k, v) else p)) k = some v := by
  induction m with
  | nil => simp [hasKey] at hm
  | cons p t ih =>
    by_cases hp : p.1 = k
    · simp [lookupKey, hp]
    · simp only [hasKey, hp, if_false] at hm
      simp only [List.map_cons, hp, if_false, lookupKey]
      exact ih hm

theorem lookupKey_overwrite_ne {β : Type} (m : List (String × β)) (k k' : String) (v : β)
    (h : k' ≠ k) :
    lookupKey (m.map (fun p => if p.1 = k then (k, v) else p)) k' = lookupKey m k' := by
  induction m with
  | nil => simp
  | cons p t ih =>
    by_cases hp : p.1 = k
    · have hp' : p.1 ≠ k' := by rw [hp]; exact Ne.symm h
      rw [List.map_cons, if_pos hp]
      simp only [lookupKey]
      rw [if_neg (Ne.symm h), if_neg hp']
      exact ih
    · simp only [List.map_cons, hp, if_false, lookupKey]
      by_cases hk' : p.1 = k'
      · simp [hk']
      · simp only [hk', if_false, ih]

theorem lookupKey_setKey {β : Type} (m : List (String × β)) (k : String) (v : β) :
    lookupKey (setKey m k v) k = some v := by
  unfold setKey
  by_cases hm : hasKey m k
  · simp only [hm, if_true]
    exact lookupKey_overwrite m k v hm
  · rw [if_neg (by simpa using hm), lookupKey_append_cases]
    have : lookupKey m k = none := by
      induction m with
      | nil => simp [lookupKey]
      | cons p t ih =>
        by_cases hp : p.1 = k
        · simp [hasKey, hp] at hm
        · simp only [hasKey, hp, if_false] at hm
          simp only [lookupKey, hp, if_false]
          exact ih hm
    simp [this, lookupKey]

theorem lookupKey_setKey_ne {β : Type} (m : List (String × β)) (k k' : String) (v : β)
    (h : k' ≠ k) : lookupKey (setKey m k v) k' = lookupKey m k' := by
  unfold setKey
  by_cases hm : hasKey m k
  · simp only [hm, if_true]
    exact lookupKey_overwrite_ne m k k' v h
  · rw [if_neg (by simpa using hm), lookupKey_append_cases]
    cases hl : lookupKey m k' with
    | some w => simp
    | none => simp [lookupKey, Ne.symm h]

/-! ## Cost Ledger (`current_costs` table) -/

/-- One row of the `current_costs` table: running day/month/all-time totals
plus the date of the last update. -/
structure CostRecord where
  day : ℚ
  month : ℚ
  all_time : ℚ
  last_update : Date
deriving DecidableEq, Repr

/-- `UsageTracker.add_current_costs`: rollover-aware accumulation.
`rec` is the fetched row for the user (`none` when absent), `today` is
`date.today()`. Mirrors the source: `all_time += cost`; same date → add to
day and month; same *month number* (`today.month == last_update.month`,
the year is not compared) → reset day, add to month; otherwise reset both;
absent row → insert a row with all three fields equal to the cost. -/
def add_current_costs (rec : Option CostRecord) (today : Date) (request_cost : ℚ) :
    CostRecord :=
  match rec with
  | some current_cost =>
    if today = current_cost.last_update then
      { day := current_cost.day + request_cost, month := current_cost.month + request_cost,
        all_time := current_cost.all_time + request_cost, last_update := today }
    else if today.month = current_cost.last_update.month then
      { day := request_cost, month := current_cost.month + request_cost,
        all_time := current_cost.all_time + request_cost, last_update := today }
    else
      { day := request_cost, month := request_cost,
        all_time := current_cost.all_time + request_cost, last_update := today }
  | none =>
      { day := request_cost, month := request_cost,
        all_time := request_cost, last_update := today }

/-- Shape of the value returned by `UsageTracker.get_current_cost`. -/
structure CostReport where
  cost_today : ℚ
  cost_month : ℚ
  cost_all_time : ℚ
deriving DecidableEq, Repr

/-- `UsageTracker.get_current_cost`: read-time zeroing. The source compares
ISO strings: `today == last_update.isoformat()` for the day figure and
`today[:7] == last_update.isoformat()[:7]` for the month figure. -/
def get_current_cost (rec : Option CostRecord) (today : Date) : CostReport :=
  match rec with
  | some current_cost =>
    { cost_today :=
        if today.isoformat = current_cost.last_update.isoformat then current_cost.day else 0
      cost_month :=
        if strSlice today.isoformat 7 = strSlice current_cost.last_update.isoformat 7 then
          current_cost.month
        else 0
      cost_all_time := current_cost.all_time }
  | none => { cost_today := 0, cost_month := 0, cost_all_time := 0 }

/-- C1 counterexample: the claim says a `last_update` in a *different calendar
month* — explicitly including the same month number of a different year —
resets the month total to the amount. With `last_update = 2023-03-15`,
`today = 2024-03-20` (same month number, different year) and amount 2 on a
record with `month = 50`, the code instead *adds*, producing 52 ≠ 2: the
source compares only `today.month == last_update.month` and ignores the
year. -/
theorem add_current_costs_year_ignored :
    (Date.mk 2023 3 15).year ≠ (Date.mk 2024 3 20).year ∧
    (add_current_costs (some ⟨3, 50, 120, ⟨2023, 3, 15⟩⟩) ⟨2024, 3, 20⟩ 2).month = 52 ∧
    (add_current_costs (some ⟨3, 50, 120, ⟨2023, 3, 15⟩⟩) ⟨2024, 3, 20⟩ 2).month ≠ 2 := by
  refine ⟨by decide, ?_, ?_⟩ <;> norm_num [add_current_costs]

/-- C1 (amended): `add_current_costs` adds the amount to `all_time`
unconditionally and sets `last_update` to today; if the stored `last_update`
equals today it adds the amount to both day and month; otherwise, if the
stored `last_update`'s *month number* equals today's month number (the year
is not compared), the day is reset to the amount and the amount added to the
month; otherwise both day and month are set to the amount; with no existing
record all three fields are set to the amount. -/
theorem add_current_costs_rollover (rec : Option CostRecord) (today : Date) (amount : ℚ)
    (_hamt : 0 ≤ amount) :
    (add_current_costs rec today amount).last_update = today ∧
    (∀ c, rec = some c →
      (add_current_costs rec today amount).all_time = c.all_time + amount ∧
      (c.last_update = today →
        (add_current_costs rec today amount).day = c.day + amount ∧
        (add_current_costs rec today amount).month = c.month + amount) ∧
      (c.last_update ≠ today → c.last_update.month = today.month →
        (add_current_costs rec today amount).day = amount ∧
        (add_current_costs rec today amount).month = c.month + amount) ∧
      (c.last_update ≠ today → c.last_update.month ≠ today.month →
        (add_current_costs rec today amount).day = amount ∧
        (add_current_costs rec today amount).month = amount)) ∧
    (rec = none →
      (add_current_costs rec today amount).day = amount ∧
      (add_current_costs rec today amount).month = amount ∧
      (add_current_costs rec today amount).all_time = amount) := by
  rcases rec with _ | c
  · refine ⟨rfl, ?_, ?_⟩
    · intro c hc; exact absurd hc (by simp)
    · intro _; exact ⟨rfl, rfl, rfl⟩
  · refine ⟨?_, ?_, ?_⟩
    · simp only [add_current_costs]
      split_ifs <;> rfl
    · intro c' hc
      cases hc
      simp only [add_current_costs]
      split_ifs with h1 h2
      · exact ⟨rfl, fun _ => ⟨rfl, rfl⟩,
          fun hne _ => absurd h1.symm hne, fun hne _ => absurd h1.symm hne⟩
      · exact ⟨rfl, fun he => absurd he.symm h1,
          fun _ _ => ⟨rfl, rfl⟩, fun _ hm => absurd h2.symm hm⟩
      · exact ⟨rfl, fun he => absurd he.symm h1,
          fun _ hm => absurd hm.symm h2, fun _ _ => ⟨rfl, rfl⟩⟩
    · intro h; exact absurd h (by simp)

/-- Witness for `add_current_costs_rollover`: a same-month rollover from
2024-02-14 to 2024-02-15 with amount 2 on `{day 3, month 50, all_time 120}`. -/
theorem add_current_costs_rollover_witness :
    (0 : ℚ) ≤ 2 ∧
    ((add_current_costs (some ⟨3, 50, 120, ⟨2024, 2, 14⟩⟩) ⟨2024, 2, 15⟩ 2).last_update
        = ⟨2024, 2, 15⟩ ∧
      (∀ c, (some (⟨3, 50, 120, ⟨2024, 2, 14⟩⟩ : CostRecord)) = some c →
        (add_current_costs (some ⟨3, 50, 120, ⟨2024, 2, 14⟩⟩) ⟨2024, 2, 15⟩ 2).all_time
            = c.all_time + 2 ∧
        (c.last_update = ⟨2024, 2, 15⟩ →
          (add_current_costs (some ⟨3, 50, 120, ⟨2024, 2, 14⟩⟩) ⟨2024, 2, 15⟩ 2).day
              = c.day + 2 ∧
          (add_current_costs (some ⟨3, 50, 120, ⟨2024, 2, 14⟩⟩) ⟨2024, 2, 15⟩ 2).month
              = c.month + 2) ∧
        (c.last_update ≠ ⟨2024, 2, 15⟩ → c.last_update.month = (Date.mk 2024 2 15).month →
          (add_current_costs (some ⟨3, 50, 120, ⟨2024, 2, 14⟩⟩) ⟨2024, 2, 15⟩ 2).day = 2 ∧
          (add_current_costs (some ⟨3, 50, 120, ⟨2024, 2, 14⟩⟩) ⟨2024, 2, 15⟩ 2).month
              = c.month + 2) ∧
        (c.last_update ≠ ⟨2024, 2, 15⟩ → c.last_update.month ≠ (Date.mk 2024 2 15).month →
          (add_current_costs (some ⟨3, 50, 120, ⟨2024, 2, 14⟩⟩) ⟨2024, 2, 15⟩ 2).day = 2 ∧
          (add_current_costs (some ⟨3, 50, 120, ⟨2024, 2, 14⟩⟩) ⟨2024, 2, 15⟩ 2).month = 2)) ∧
      ((some (⟨3, 50, 120, ⟨2024, 2, 14⟩⟩ : CostRecord)) = none →
        (add_current_costs (some ⟨3, 50, 120, ⟨2024, 2, 14⟩⟩) ⟨2024, 2, 15⟩ 2).day = 2 ∧
        (add_current_costs (some ⟨3, 50, 120, ⟨2024, 2, 14⟩⟩) ⟨2024, 2, 15⟩ 2).month = 2 ∧
        (add_current_costs (some ⟨3, 50, 120, ⟨2024, 2, 14⟩⟩) ⟨2024, 2, 15⟩ 2).all_time = 2)) :=
  ⟨by norm_num, add_current_costs_rollover _ _ _ (by norm_num)⟩

/-- C4: `get_current_cost` returns the stored day total only when
`last_update` equals today (else 0), the stored month total only when
`last_update` shares year and month with today (else 0), the all-time total
unconditionally, and all zeros when no record exists. -/
theorem get_current_cost_spec (rec : Option CostRecord) (today : Date)
    (htoday : today.Valid) :
    (rec = none → get_current_cost rec today = ⟨0, 0, 0⟩) ∧
    (∀ c, rec = some c → c.last_update.Valid →
      (get_current_cost rec today).cost_today
          = (if c.last_update = today then c.day else 0) ∧
      (get_current_cost rec today).cost_month
          = (if c.last_update.year = today.year ∧ c.last_update.month = today.month
             then c.month else 0) ∧
      (get_current_cost rec today).cost_all_time = c.all_time) := by
  constructor
  · rintro rfl; rfl
  · intro c hc hvalid
    cases hc
    simp only [get_current_cost]
    refine ⟨?_, ?_, by trivial⟩
    · by_cases h : today.isoformat = c.last_update.isoformat
      · have he : today = c.last_update := Date.isoformat_inj htoday hvalid h
        rw [if_pos h, if_pos he.symm]
      · have hne : ¬ c.last_update = today := fun e => h (by rw [e])
        rw [if_neg h, if_neg hne]
    · by_cases h : strSlice today.isoformat 7 = strSlice c.last_update.isoformat 7
      · have he := (Date.isoformat_slice7_eq_iff htoday hvalid).mp h
        rw [if_pos h, if_pos ⟨he.1.symm, he.2.symm⟩]
      · have hne : ¬ (c.last_update.year = today.year ∧ c.last_update.month = today.month) := by
          intro he
          exact h ((Date.isoformat_slice7_eq_iff htoday hvalid).mpr ⟨he.1.symm, he.2.symm⟩)
        rw [if_neg h, if_neg hne]

/-- Witness for `get_current_cost_spec`: a record last updated 2024-01-31
read on 2024-02-15 reports zero for the day and the month but keeps the
all-time figure. -/
theorem get_current_cost_spec_witness :
    (Date.mk 2024 2 15).Valid ∧
    ((some (⟨7, 40, 100, ⟨2024, 1, 31⟩⟩ : CostRecord)) = none →
      get_current_cost (some ⟨7, 40, 100, ⟨2024, 1, 31⟩⟩) ⟨2024, 2, 15⟩ = ⟨0, 0, 0⟩) ∧
    (∀ c, (some (⟨7, 40, 100, ⟨2024, 1, 31⟩⟩ : CostRecord)) = some c → c.last_update.Valid →
      (get_current_cost (some ⟨7, 40, 100, ⟨2024, 1, 31⟩⟩) ⟨2024, 2, 15⟩).cost_today
          = (if c.last_update = ⟨2024, 2, 15⟩ then c.day else 0) ∧
      (get_current_cost (some ⟨7, 40, 100, ⟨2024, 1, 31⟩⟩) ⟨2024, 2, 15⟩).cost_month
          = (if c.last_update.year = (Date.mk 2024 2 15).year
               ∧ c.last_update.month = (Date.mk 2024 2 15).month
             then c.month else 0) ∧
      (get_current_cost (some ⟨7, 40, 100, ⟨2024, 1, 31⟩⟩) ⟨2024, 2, 15⟩).cost_all_time
          = c.all_time) :=
  ⟨by decide, (get_current_cost_spec _ _ (by decide)).1, (get_current_cost_spec _ _ (by decide)).2⟩

/-! ## Price-table strings

The program passes price tables around as comma-separated decimal literals
(`"0.016,0.018,0.02"`). `parse_price_table` is Python's
`[float(x) for x in s.split(",")]` restricted to such well-formed decimal
literals (decimals are read exactly, into `ℚ`). -/

/-- Python `str.split(sep)` for a one-character separator, on the character
list of the string. -/
def splitOnChar (c : Char) (cs : List Char) : List (List Char) :=
  match cs with
  | [] => [[]]
  | x :: xs =>
    let r := splitOnChar c xs
    if x = c then [] :: r
    else
      match r with
      | [] => [[x]]
      | h :: t => (x :: h) :: t

/-- Digit string to natural number (`'0'` has code 48). -/
def digitsToNat (cs : List Char) : Nat := cs.foldl (fun a c => 10 * a + (c.toNat - 48)) 0

/-- Python `float(x)` on a plain decimal literal such as `"0.016"`, read
exactly as a rational. -/
def parseDecimal (cs : List Char) : ℚ :=
  match splitOnChar '.' cs with
  | [w] => (digitsToNat w : ℚ)
  | [w, f] => (digitsToNat w : ℚ) + (digitsToNat f : ℚ) / 10 ^ f.length
  | _ => 0

/-- Python `[float(x) for x in s.split(",")]`. -/
def parse_price_table (s : String) : List ℚ := (splitOnChar ',' s.data).map parseDecimal

theorem parse_price_table_default_images :
    parse_price_table "0.016,0.018,0.02" = [16/1000, 18/1000, 2/100] := by
  have hsplit : splitOnChar ',' "0.016,0.018,0.02".data
      = [['0', '.', '0', '1', '6'], ['0', '.', '0', '1', '8'], ['0', '.', '0', '2']] := by
    decide
  have h1 : splitOnChar '.' ['0', '.', '0', '1', '6'] = [['0'], ['0', '1', '6']] := by decide
  have h2 : splitOnChar '.' ['0', '.', '0', '1', '8'] = [['0'], ['0', '1', '8']] := by decide
  have h3 : splitOnChar '.' ['0', '.', '0', '2'] = [['0'], ['0', '2']] := by decide
  have d0 : digitsToNat ['0'] = 0 := by decide
  have d016 : digitsToNat ['0', '1', '6'] = 16 := by decide
  have d018 : digitsToNat ['0', '1', '8'] = 18 := by decide
  have d02 : digitsToNat ['0', '2'] = 2 := by decide
  rw [parse_price_table, hsplit]
  simp only [List.map_cons, List.map_nil, parseDecimal, h1, h2, h3, d0, d016, d018, d02]
  norm_num

/-! ## Image requests (`add_image_request`) -/

/-- The fixed size table of `add_image_request`. -/
def sizes : List String := ["256x256", "512x512", "1024x1024"]

/-- Python `sizes.index(image_size)` on the literal list above; `none`
models the `ValueError` raised — before any cost is charged or any history
written — when the size string is not in the table. -/
def sizes_index (image_size : String) : Option Nat :=
  if image_size = "256x256" then some 0
  else if image_size = "512x512" then some 1
  else if image_size = "1024x1024" then some 2
  else none

/-- Line 223 of `usage.py`: `image_cost = image_prices[requested_size]`.
The default price table is the raw comma-separated *string*, so this is
Python string indexing and produces a single character, not a number. -/
def image_request_cost (image_prices : String) (image_size : String) : Option Char :=
  (sizes_index image_size).bind (fun requested_size => strIndex image_prices requested_size)

/-- A per-day image-count vector, slots ordered [256x256, 512x512, 1024x1024]. -/
abbrev ImageVec := ℚ × ℚ × ℚ

/-- `current_day_images[requested_size] += 1` (the index always comes from
`sizes_index`, hence is 0, 1 or 2). -/
def incrSlot (v : ImageVec) (i : Nat) : ImageVec :=
  match i with
  | 0 => (v.1 + 1, v.2.1, v.2.2)
  | 1 => (v.1, v.2.1 + 1, v.2.2)
  | _ => (v.1, v.2.1, v.2.2 + 1)

/-- `[0 if i != requested_size else 1 for i in range(3)]`. -/
def oneHot (requested_size : Nat) : ImageVec :=
  ((if 0 = requested_size then 1 else 0),
   (if 1 = requested_size then 1 else 0),
   (if 2 = requested_size then 1 else 0))

/-- The `number_images` update of `UsageTracker.add_image_request`
(lines 229–257): `hist` is the per-day mapping stored in the user's
`usage_history` row (`none` when the row is absent); the day entry defaults
to `[0, 0, 0]` and the requested size's slot is incremented; an absent row
is initialized with a one-hot vector for today. `none` is the
`ValueError` from `sizes.index` on an unknown size. -/
def add_image_request_images (hist : Option (List (String × ImageVec))) (today : String)
    (image_size : String) : Option (List (String × ImageVec)) :=
  match sizes_index image_size with
  | none => none
  | some requested_size =>
    some (match hist with
      | some number_images =>
          setKey number_images today
            (incrSlot ((lookupKey number_images today).getD (0, 0, 0)) requested_size)
      | none => [(today, oneHot requested_size)])

/-- C2 evidence: with the default price table `"0.016,0.018,0.02"` and size
`"1024x1024"`, the charged "cost" is the character at string index 2 of the
raw table — the one-character string `"0"` — not the parsed price `0.02`
found at index 2 of the parsed numeric table. -/
theorem add_image_request_cost_is_character :
    image_request_cost "0.016,0.018,0.02" "1024x1024" = some '0' ∧
    (parse_price_table "0.016,0.018,0.02").get? 2 = some (2/100) := by
  refine ⟨by decide, ?_⟩
  rw [parse_price_table_default_images]
  rfl

/-! ## TTS requests (`add_tts_request`) -/

/-- Per-model, per-date character counts (`tts_characters`). -/
abbrev TtsMap := List (String × List (String × ℚ))

/-- `UsageTracker.add_tts_request`: `price = tts_prices.get(tts_model, 0)`
(an absent model silently prices at 0), `tts_cost = round(len * price / 1000, 2)`
is charged to the ledger, and the character count is recorded under the
model and today's date. -/
def add_tts_request (rec : Option CostRecord) (hist : Option TtsMap) (today : Date)
    (text_length : ℚ) (tts_model : String) (tts_prices : List (String × ℚ)) :
    CostRecord × TtsMap :=
  let price := (lookupKey tts_prices tts_model).getD 0
  let tts_cost := pyRound (text_length * price / 1000) 2
  let rec' := add_current_costs rec today tts_cost
  match hist with
  | some tts_characters =>
    let dates := (lookupKey tts_characters tts_model).getD []
    (rec', setKey tts_characters tts_model
      (setKey dates today.isoformat ((lookupKey dates today.isoformat).getD 0 + text_length)))
  | none => (rec', [(tts_model, [(today.isoformat, text_length)])])

/-- C3 counterexample: for a TTS model absent from the price table the
operation does not fail — the price defaults to 0, the ledger is charged a
zero cost (leaving the record unchanged on a same-day call), and the
characters are still recorded. -/
theorem add_tts_request_unknown_model_no_failure :
    lookupKey [("tts-1", (15 : ℚ)/1000)] "tts-1-hd" = none ∧
    add_tts_request (some ⟨3, 50, 120, ⟨2024, 2, 1⟩⟩) (some []) ⟨2024, 2, 1⟩ 500 "tts-1-hd"
        [("tts-1", (15 : ℚ)/1000)]
      = (⟨3, 50, 120, ⟨2024, 2, 1⟩⟩, [("tts-1-hd", [("2024-02-01", 500)])]) := by
  have hl : lookupKey [("tts-1", (15 : ℚ)/1000)] "tts-1-hd" = none := by simp [lookupKey]
  refine ⟨hl, ?_⟩
  have hiso : (Date.mk 2024 2 1).isoformat = "2024-02-01" := by decide
  simp only [add_tts_request, hl, Option.getD_none]
  norm_num [pyRound_zero, add_current_costs, setKey, hasKey, lookupKey, hiso]

/-- C3 (amended): an unknown image size makes `add_image_request` raise
`ValueError` before any cost is computed or any history written (both the
cost expression and the history update are modelled as failing with no
value); an unknown TTS model does *not* make `add_tts_request` fail — the
price is defaulted to 0 and the ledger receives a charge of exactly 0. -/
theorem unknown_key_handling :
    (∀ image_size : String, image_size ∉ sizes →
      (∀ image_prices, image_request_cost image_prices image_size = none) ∧
      (∀ hist today, add_image_request_images hist today image_size = none)) ∧
    (∀ rec hist today (text_length : ℚ) tts_model tts_prices,
      lookupKey tts_prices tts_model = none →
      (add_tts_request rec hist today text_length tts_model tts_prices).1
        = add_current_costs rec today 0) := by
  constructor
  · intro image_size hmem
    have h0 : image_size ≠ "256x256" := fun e => hmem (by rw [e]; simp [sizes])
    have h1 : image_size ≠ "512x512" := fun e => hmem (by rw [e]; simp [sizes])
    have h2 : image_size ≠ "1024x1024" := fun e => hmem (by rw [e]; simp [sizes])
    have hidx : sizes_index image_size = none := by simp [sizes_index, h0, h1, h2]
    exact ⟨fun _ => by simp [image_request_cost, hidx],
      fun _ _ => by simp [add_image_request_images, hidx]⟩
  · intro rec hist today text_length tts_model tts_prices h
    have hcost : pyRound (text_length * (lookupKey tts_prices tts_model).getD 0 / 1000) 2 = 0 := by
      rw [h]
      norm_num [pyRound_zero]
    rcases hist with _ | m <;> simp only [add_tts_request, hcost]

/-- Witness for `unknown_key_handling`: the size `"768x768"` is not in the
table and yields no cost and no history write; the model `"tts-1-hd"` is
absent from the one-entry price table and the ledger is charged zero. -/
theorem unknown_key_handling_witness :
    ("768x768" ∉ sizes ∧
      image_request_cost "0.016,0.018,0.02" "768x768" = none ∧
      add_image_request_images (some []) "2024-02-01" "768x768" = none) ∧
    (lookupKey [("tts-1", (15 : ℚ)/1000)] "tts-1-hd" = none ∧
      (add_tts_request (some ⟨3, 50, 120, ⟨2024, 2, 1⟩⟩) (some []) ⟨2024, 2, 1⟩ 500 "tts-1-hd"
          [("tts-1", (15 : ℚ)/1000)]).1
        = add_current_costs (some ⟨3, 50, 120, ⟨2024, 2, 1⟩⟩) ⟨2024, 2, 1⟩ 0) :=
  ⟨⟨by decide,
    ((unknown_key_handling.1 "768x768" (by decide)).1 "0.016,0.018,0.02"),
    ((unknown_key_handling.1 "768x768" (by decide)).2 (some []) "2024-02-01")⟩,
   ⟨by simp [lookupKey],
    unknown_key_handling.2 _ _ _ _ _ _ (by simp [lookupKey])⟩⟩

/-- C8: starting with no image entry for today, recording `"1024x1024"`,
`"1024x1024"`, then `"256x256"` stores the day vector `[1, 0, 2]`; and in
general each successful call increments exactly the requested size's slot
(starting from a fresh `[0, 0, 0]` when the day entry is absent) and leaves
every other day's entry unchanged. -/
theorem add_image_request_day_vector (hist : Option (List (String × ImageVec)))
    (today : String) (h : ∀ m, hist = some m → lookupKey m today = none) :
    (∀ (m : List (String × ImageVec)) i image_size, sizes_index image_size = some i →
      ∃ m', add_image_request_images (some m) today image_size = some m' ∧
        lookupKey m' today = some (incrSlot ((lookupKey m today).getD (0, 0, 0)) i) ∧
        ∀ d, d ≠ today → lookupKey m' d = lookupKey m d) ∧
    (∃ h1 h2 h3,
      add_image_request_images hist today "1024x1024" = some h1 ∧
      add_image_request_images (some h1) today "1024x1024" = some h2 ∧
      add_image_request_images (some h2) today "256x256" = some h3 ∧
      lookupKey h3 today = some (1, 0, 2)) := by
  constructor
  · intro m i image_size hi
    exact ⟨setKey m today (incrSlot ((lookupKey m today).getD (0, 0, 0)) i),
      by simp [add_image_request_images, hi],
      lookupKey_setKey _ _ _,
      fun d hd => lookupKey_setKey_ne _ _ _ _ hd⟩
  · have hvec : incrSlot (incrSlot (incrSlot ((0 : ℚ), (0 : ℚ), (0 : ℚ)) 2) 2) 0
        = ((1 : ℚ), (0 : ℚ), (2 : ℚ)) := by
      norm_num [incrSlot]
    rcases hist with _ | m
    · have hone : oneHot 2 = incrSlot ((0 : ℚ), (0 : ℚ), (0 : ℚ)) 2 := by
        norm_num [oneHot, incrSlot]
      have hl1 : lookupKey [(today, oneHot 2)] today = some (oneHot 2) := by
        simp [lookupKey]
      refine ⟨[(today, oneHot 2)],
        setKey [(today, oneHot 2)] today (incrSlot (incrSlot ((0 : ℚ), (0 : ℚ), (0 : ℚ)) 2) 2),
        setKey (setKey [(today, oneHot 2)] today
            (incrSlot (incrSlot ((0 : ℚ), (0 : ℚ), (0 : ℚ)) 2) 2)) today
          (incrSlot (incrSlot (incrSlot ((0 : ℚ), (0 : ℚ), (0 : ℚ)) 2) 2) 0),
        rfl, ?_, ?_, ?_⟩
      · simp [add_image_request_images, sizes_index, lookupKey, hone]
      · simp [add_image_request_images, sizes_index, lookupKey_setKey]
      · rw [lookupKey_setKey, hvec]
    · have hm : lookupKey m today = none := h m rfl
      refine ⟨setKey m today (incrSlot ((0 : ℚ), (0 : ℚ), (0 : ℚ)) 2),
        setKey (setKey m today (incrSlot ((0 : ℚ), (0 : ℚ), (0 : ℚ)) 2)) today
          (incrSlot (incrSlot ((0 : ℚ), (0 : ℚ), (0 : ℚ)) 2) 2),
        setKey (setKey (setKey m today (incrSlot ((0 : ℚ), (0 : ℚ), (0 : ℚ)) 2)) today
            (incrSlot (incrSlot ((0 : ℚ), (0 : ℚ), (0 : ℚ)) 2) 2)) today
          (incrSlot (incrSlot (incrSlot ((0 : ℚ), (0 : ℚ), (0 : ℚ)) 2) 2) 0),
        ?_, ?_, ?_, ?_⟩
      · simp [add_image_request_images, sizes_index, hm]
      · simp [add_image_request_images, sizes_index, lookupKey_setKey]
      · simp [add_image_request_images, sizes_index, lookupKey_setKey]
      · rw [lookupKey_setKey, hvec]

/-- Witness for `add_image_request_day_vector`: a history holding an entry
for 2024-02-01 only, exercised on 2024-02-02. -/
theorem add_image_request_day_vector_witness :
    (∀ m, (some [("2024-02-01", ((5 : ℚ), (5 : ℚ), (5 : ℚ)))]) = some m →
        lookupKey m "2024-02-02" = none) ∧
    ((∀ (m : List (String × ImageVec)) i image_size, sizes_index image_size = some i →
      ∃ m', add_image_request_images (some m) "2024-02-02" image_size = some m' ∧
        lookupKey m' "2024-02-02"
            = some (incrSlot ((lookupKey m "2024-02-02").getD (0, 0, 0)) i) ∧
        ∀ d, d ≠ "2024-02-02" → lookupKey m' d = lookupKey m d) ∧
    (∃ h1 h2 h3,
      add_image_request_images (some [("2024-02-01", ((5 : ℚ), (5 : ℚ), (5 : ℚ)))])
          "2024-02-02" "1024x1024" = some h1 ∧
      add_image_request_images (some h1) "2024-02-02" "1024x1024" = some h2 ∧
      add_image_request_images (some h2) "2024-02-02" "256x256" = some h3 ∧
      lookupKey h3 "2024-02-02" = some (1, 0, 2))) :=
  ⟨by intro m hm; cases hm; simp [lookupKey],
   add_image_request_day_vector _ _ (by intro m hm; cases hm; simp [lookupKey])⟩

/-! ## Month aggregation by date prefix -/

theorem string_data_inj {a b : String} (h : a.data = b.data) : a = b :=
  congrArg String.mk h

theorem isoformat_data_take_seven (t : Date) :
    (strSlice t.isoformat 7).data = t.isoformat.data.take 7 := rfl

/-- `startswith` against a month key obtained by slicing an ISO date is the
same test as comparing seven-character slices. -/
theorem startswith_slice_eq (s : String) (t : Date) :
    startswith s (strSlice t.isoformat 7)
      = decide (strSlice s 7 = strSlice t.isoformat 7) := by
  have hlen : (strSlice t.isoformat 7).data.length = 7 := rfl
  unfold startswith
  rw [hlen, decide_eq_decide]
  constructor
  · intro h
    exact string_data_inj (by rw [isoformat_data_take_seven]; exact h)
  · intro h
    have := congrArg String.data h
    simpa [strSlice] using this

/-- An ISO date string starts with its own seven-character month slice. -/
theorem startswith_self_slice (t : Date) :
    startswith t.isoformat (strSlice t.isoformat 7) = true := by
  rw [startswith_slice_eq]
  simp

/-- Splitting a prefix-filtered sum at a distinguished key: with unique keys,
the sum over all matching entries is the entry at `ts` (0 when absent) plus
the sum over the matching entries at other keys.  Instantiated with the
`startswith` month test this is the "month total includes the today entry"
fact. -/
theorem sum_filter_split (l : List (String × ℤ)) (ts : String) (pred : String → Bool)
    (hts : pred ts = true) (hnodup : (l.map Prod.fst).Nodup) :
    ((l.filter (fun p => pred p.1)).map Prod.snd).sum
      = (lookupKey l ts).getD 0
        + ((l.filter (fun p => pred p.1 && !(p.1 == ts))).map Prod.snd).sum := by
  induction l with
  | nil => simp [lookupKey]
  | cons p t ih =>
    obtain ⟨k, v⟩ := p
    simp only [List.map_cons, List.nodup_cons] at hnodup
    obtain ⟨hpn, hnd⟩ := hnodup
    by_cases hp : k = ts
    · subst hp
      have hkeys : ∀ q ∈ t, (pred q.1 && !(q.1 == k)) = pred q.1 := by
        intro q hq
        have hqts : q.1 ≠ k := by
          intro e
          exact hpn (by rw [← e]; exact List.mem_map_of_mem Prod.fst hq)
        simp [hqts]
      have hfil : t.filter (fun q => pred q.1 && !(q.1 == k))
          = t.filter (fun q => pred q.1) := List.filter_congr hkeys
      simp [List.filter_cons, hts, hfil, lookupKey]
    · have hne : (k == ts) = false := by simp [hp]
      by_cases hpp : pred k = true
      · simp [List.filter_cons, hpp, hne, lookupKey, hp, ih hnd]
        ring
      · have hpf : pred k = false := by simpa using hpp
        simp [List.filter_cons, hpf, lookupKey, hp, ih hnd]

/-- `UsageTracker.get_current_token_usage`: day figure is the entry at
today's ISO date (0 when absent); month figure sums the entries whose date
key starts with `today_str[:7]`. -/
def get_current_token_usage (hist : Option (List (String × ℤ))) (today : Date) : ℤ × ℤ :=
  match hist with
  | some chat_tokens =>
      ((lookupKey chat_tokens today.isoformat).getD 0,
       ((chat_tokens.filter
           (fun p => startswith p.1 (strSlice today.isoformat 7))).map Prod.snd).sum)
  | none => (0, 0)

/-- C7: the month aggregate is the sum of exactly the entries whose
seven-character slice equals today's `YYYY-MM` slice, and (with unique date
keys) it decomposes as the today entry plus the remaining matching
entries — i.e. it includes the today entry. -/
theorem month_aggregate_spec (entries : List (String × ℤ)) (today : Date)
    (hnodup : (entries.map Prod.fst).Nodup) :
    (get_current_token_usage (some entries) today).2
        = ((entries.filter
            (fun p => decide (strSlice p.1 7 = strSlice today.isoformat 7))).map Prod.snd).sum ∧
    (get_current_token_usage (some entries) today).2
        = (get_current_token_usage (some entries) today).1
          + ((entries.filter (fun p =>
                startswith p.1 (strSlice today.isoformat 7)
                  && !(p.1 == today.isoformat))).map Prod.snd).sum := by
  constructor
  · simp only [get_current_token_usage]
    have hcong :
        List.filter (fun p : String × ℤ => startswith p.1 (strSlice today.isoformat 7)) entries
          = List.filter
              (fun p => decide (strSlice p.1 7 = strSlice today.isoformat 7)) entries :=
      List.filter_congr (fun p _ => startswith_slice_eq p.1 today)
    rw [hcong]
  · exact sum_filter_split entries today.isoformat
      (fun s => startswith s (strSlice today.isoformat 7))
      (startswith_self_slice today) hnodup

/-- Witness for `month_aggregate_spec`, realising the spec's example: a
history with dates 2024-01-31 (value 5) and 2024-02-01 (value 7) aggregated
on 2024-02-15; the month total takes only the February entry. -/
theorem month_aggregate_spec_witness :
    (([("2024-01-31", (5 : ℤ)), ("2024-02-01", 7)].map Prod.fst).Nodup) ∧
    ((get_current_token_usage (some [("2024-01-31", (5 : ℤ)), ("2024-02-01", 7)])
        ⟨2024, 2, 15⟩).2
      = (([("2024-01-31", (5 : ℤ)), ("2024-02-01", 7)].filter
          (fun p => decide (strSlice p.1 7 = strSlice (Date.mk 2024 2 15).isoformat 7))).map
            Prod.snd).sum ∧
    (get_current_token_usage (some [("2024-01-31", (5 : ℤ)), ("2024-02-01", 7)])
        ⟨2024, 2, 15⟩).2
      = (get_current_token_usage (some [("2024-01-31", (5 : ℤ)), ("2024-02-01", 7)])
          ⟨2024, 2, 15⟩).1
        + (([("2024-01-31", (5 : ℤ)), ("2024-02-01", 7)].filter (fun p =>
              startswith p.1 (strSlice (Date.mk 2024 2 15).isoformat 7)
                && !(p.1 == (Date.mk 2024 2 15).isoformat))).map Prod.snd).sum) ∧
    (get_current_token_usage (some [("2024-01-31", (5 : ℤ)), ("2024-02-01", 7)])
        ⟨2024, 2, 15⟩).2 = 7 :=
  ⟨by decide, month_aggregate_spec _ _ (by decide), by decide⟩

/-! ## TTS usage aggregation (`get_current_tts_usage`) -/

/-- `UsageTracker.get_current_tts_usage`: `characters_day`/`characters_month`
start at 0 and are accumulated across every model's date map (`+=` over the
dict), the month contribution by the date-prefix test; both totals are
returned through `int(...)`. -/
def get_current_tts_usage (hist : Option TtsMap) (today : Date) : ℤ × ℤ :=
  match hist with
  | some tts_characters =>
      (pyInt (tts_characters.foldl
          (fun acc m => acc + (lookupKey m.2 today.isoformat).getD 0) 0),
       pyInt (tts_characters.foldl
          (fun acc m => acc +
            ((m.2.filter (fun p => startswith p.1 (strSlice today.isoformat 7))).map
              Prod.snd).sum) 0))
  | none => (0, 0)

theorem foldl_add_eq_sum {α : Type} (f : α → ℚ) (l : List α) (init : ℚ) :
    l.foldl (fun acc x => acc + f x) init = init + (l.map f).sum := by
  induction l generalizing init with
  | nil => simp
  | cons x t ih => simp only [List.foldl_cons, List.map_cons, List.sum_cons, ih]; ring

/-- C10: the TTS day/month figures are the `int(...)` images of the sums,
across all model sub-keys, of today's entry resp. the month-matching
entries; and `pyInt` (Python `int()`) truncates toward zero: it is the floor
on nonnegative values and the ceiling on nonpositive ones, so fractional
stored quantities are truncated toward zero. -/
theorem get_current_tts_usage_spec (tts : TtsMap) (today : Date) :
    get_current_tts_usage (some tts) today
      = (pyInt ((tts.map (fun m => (lookupKey m.2 today.isoformat).getD 0)).sum),
         pyInt ((tts.map (fun m =>
           ((m.2.filter (fun p => startswith p.1 (strSlice today.isoformat 7))).map
             Prod.snd).sum)).sum)) ∧
    (∀ q : ℚ, 0 ≤ q → pyInt q = ⌊q⌋) ∧
    (∀ q : ℚ, q ≤ 0 → pyInt q = ⌈q⌉) := by
  refine ⟨?_, fun q hq => pyInt_of_nonneg hq, fun q hq => pyInt_of_nonpos hq⟩
  simp only [get_current_tts_usage, foldl_add_eq_sum, zero_add]

/-- Witness for `get_current_tts_usage_spec`: two models, one holding a
fractional 5/2 characters in February and one 3 characters today; the month
total 5/2 + 3 = 11/2 is reported as `int(5.5) = 5`. -/
theorem get_current_tts_usage_spec_witness :
    (get_current_tts_usage
        (some [("tts-1", [("2024-02-01", (5 : ℚ)/2)]), ("tts-1-hd", [("2024-02-15", 3)])])
        ⟨2024, 2, 15⟩
      = (pyInt (([("tts-1", [("2024-02-01", (5 : ℚ)/2)]), ("tts-1-hd", [("2024-02-15", 3)])].map
            (fun m => (lookupKey m.2 (Date.mk 2024 2 15).isoformat).getD 0)).sum),
         pyInt (([("tts-1", [("2024-02-01", (5 : ℚ)/2)]), ("tts-1-hd", [("2024-02-15", 3)])].map
            (fun m => ((m.2.filter (fun p =>
                startswith p.1 (strSlice (Date.mk 2024 2 15).isoformat 7))).map
              Prod.snd).sum)).sum)) ∧
      ((0 : ℚ) ≤ 11/2 ∧ pyInt ((11 : ℚ)/2) = ⌊(11 : ℚ)/2⌋) ∧
      ((-(27 : ℚ)/10) ≤ 0 ∧ pyInt (-(27 : ℚ)/10) = ⌈-(27 : ℚ)/10⌉)) :=
  ⟨(get_current_tts_usage_spec _ _).1,
   ⟨by norm_num, (get_current_tts_usage_spec [] ⟨2024, 2, 15⟩).2.1 _ (by norm_num)⟩,
   ⟨by norm_num, (get_current_tts_usage_spec [] ⟨2024, 2, 15⟩).2.2 _ (by norm_num)⟩⟩

/-! ## User settings (`user_settings` table) -/

/-- One row of the `user_settings` table. `last_update` stands for the
`datetime.now().isoformat()` timestamp; only its freshness matters here. -/
structure UserSetting where
  model_name : String
  brain : String
  last_update : Nat
deriving DecidableEq, Repr

/-- `UsageTracker.update_user_model`: update `model_name` (and
`last_update`) when a row exists; otherwise insert a row with the given
model and the literal `"assistant"` persona. -/
def update_user_model (setting : Option UserSetting) (model_name : String) (now : Nat) :
    UserSetting :=
  match setting with
  | some st => { st with model_name := model_name, last_update := now }
  | none => { model_name := model_name, brain := "assistant", last_update := now }

/-- `UsageTracker.update_user_brain`: update `brain` (and `last_update`)
when a row exists; otherwise insert a row with the given persona and the
default model literal `"gpt-3.5-turbo-0125"`. -/
def update_user_brain (setting : Option UserSetting) (brain : String) (now : Nat) :
    UserSetting :=
  match setting with
  | some st => { st with brain := brain, last_update := now }
  | none => { model_name := "gpt-3.5-turbo-0125", brain := brain, last_update := now }

/-- C9: on a fresh user `update_user_model m` creates a row with model `m`
and persona `"assistant"`; a subsequent `update_user_brain p` overwrites
only the persona (and timestamp), keeping model `m`; and symmetrically each
update on an existing row leaves the other field untouched. -/
theorem settings_upsert_spec (m p : String) (t1 t2 : Nat) :
    (update_user_model none m t1).model_name = m ∧
    (update_user_model none m t1).brain = "assistant" ∧
    (update_user_brain (some (update_user_model none m t1)) p t2).model_name = m ∧
    (update_user_brain (some (update_user_model none m t1)) p t2).brain = p ∧
    (update_user_brain (some (update_user_model none m t1)) p t2).last_update = t2 ∧
    (∀ (st : UserSetting) (m' : String) (t : Nat),
      (update_user_model (some st) m' t).brain = st.brain ∧
      (update_user_model (some st) m' t).model_name = m') ∧
    (∀ (st : UserSetting) (p' : String) (t : Nat),
      (update_user_brain (some st) p' t).model_name = st.model_name ∧
      (update_user_brain (some st) p' t).brain = p') :=
  ⟨rfl, rfl, rfl, rfl, rfl, fun _ _ _ => ⟨rfl, rfl⟩, fun _ _ _ => ⟨rfl, rfl⟩⟩

/-! ## Tracker construction (`SupabaseClient.__new__`, `UsageTracker.__init__`,
`UsageTracker.create`) -/

/-- The underlying supabase client value (only its presence matters). -/
structure Client where
  url : String
  key : String
deriving DecidableEq, Repr

/-- `SupabaseClient.__new__`: reads `SUPABASE_URL`/`SUPABASE_KEY` from the
environment (`none` = unset); a falsy value (missing or empty) raises
`ValueError`, and the raise propagates out of `__new__`. A connection
failure inside `create_client` is modelled by the caller passing the
resulting `Except.error` downstream. -/
def supabaseClient_new (url key : Option String) : Except String Client :=
  match url, key with
  | some u, some k =>
      if u = "" ∨ k = "" then Except.error "Supabase URL or Key is missing."
      else Except.ok ⟨u, k⟩
  | _, _ => Except.error "Supabase URL or Key is missing."

/-- The state `UsageTracker.__init__` leaves behind: the `supabase`
attribute is only assigned inside a `try`, so it is absent (`none`) when
the gateway construction failed. -/
structure TrackerState where
  supabase : Option Client
  user_id : Int
  user_name : String
deriving DecidableEq, Repr

/-- `UsageTracker.__init__`: the gateway construction is wrapped in
`try/except Exception` whose handler only logs — the exception does NOT
propagate, `__init__` finishes normally and returns an object whose
`supabase` attribute was never assigned. -/
def usageTracker_init (gateway : Except String Client) (user_id : Int)
    (user_name : String) : TrackerState :=
  { supabase :=
      match gateway with
      | Except.ok c => some c
      | Except.error _ => none,
    user_id := user_id, user_name := user_name }

/-- `UsageTracker.create`: constructs the tracker and calls
`load_initial_data`, which dereferences `self.supabase` (an
`AttributeError` when the client is missing); the surrounding
`try/except Exception` catches any failure, logs, and falls through —
returning `None` instead of raising. -/
def usageTracker_create (gateway : Except String Client) (user_id : Int)
    (user_name : String) : Option TrackerState :=
  let tracker := usageTracker_init gateway user_id user_name
  match tracker.supabase with
  | some _ => some tracker
  | none => none

/-- C6 counterexample: with the gateway failing (here: missing URL and
key), `UsageTracker.__init__` still returns a tracker object — no failure
propagates — and `UsageTracker.create` swallows the subsequent failure and
returns `None` rather than raising: construction does not "fail loudly". -/
theorem usage_tracker_swallows_gateway_failure :
    supabaseClient_new none none = Except.error "Supabase URL or Key is missing." ∧
    usageTracker_init (Except.error "Supabase URL or Key is missing.") 42 "alice"
      = { supabase := none, user_id := 42, user_name := "alice" } ∧
    usageTracker_create (Except.error "Supabase URL or Key is missing.") 42 "alice" = none :=
  ⟨rfl, rfl, rfl⟩

/-- C6 (amended): `SupabaseClient.__new__` does raise on a missing or empty
URL/key, but `UsageTracker.__init__` catches every gateway failure, logs,
and still returns a tracker object with no client attached; and
`UsageTracker.create` catches the failure of `load_initial_data` on such a
tracker and returns `None` instead of propagating. Only a successful
gateway yields a tracker carrying a client. -/
theorem tracker_construction_error_handling :
    (∀ url key : Option String,
      url = none ∨ url = some "" ∨ key = none ∨ key = some "" →
      supabaseClient_new url key = Except.error "Supabase URL or Key is missing.") ∧
    (∀ (e : String) (uid : Int) (uname : String),
      usageTracker_init (Except.error e) uid uname
          = { supabase := none, user_id := uid, user_name := uname } ∧
      usageTracker_create (Except.error e) uid uname = none) ∧
    (∀ (c : Client) (uid : Int) (uname : String),
      usageTracker_create (Except.ok c) uid uname
        = some { supabase := some c, user_id := uid, user_name := uname }) := by
  refine ⟨?_, fun e uid uname => ⟨rfl, rfl⟩, fun c uid uname => rfl⟩
  intro url key h
  rcases h with rfl | rfl | rfl | rfl
  · cases key <;> rfl
  · cases key with
    | none => rfl
    | some k => simp [supabaseClient_new]
  · cases url <;> rfl
  · cases url with
    | none => rfl
    | some u => simp [supabaseClient_new]

/-- Witness for `tracker_construction_error_handling`: unset URL with a
present key refuses; a failed gateway still yields an object from
`__init__` and `None` from `create`; a working gateway yields the tracker. -/
theorem tracker_construction_error_handling_witness :
    ((none : Option String) = none ∨ (none : Option String) = some ""
        ∨ (some "k" : Option String) = none ∨ (some "k" : Option String) = some "") ∧
    supabaseClient_new none (some "k") = Except.error "Supabase URL or Key is missing." ∧
    (usageTracker_init (Except.error "boom") 42 "alice"
        = { supabase := none, user_id := 42, user_name := "alice" } ∧
      usageTracker_create (Except.error "boom") 42 "alice" = none) ∧
    usageTracker_create (Except.ok ⟨"u", "k"⟩) 42 "alice"
      = some { supabase := some ⟨"u", "k"⟩, user_id := 42, user_name := "alice" } :=
  ⟨Or.inl rfl,
   tracker_construction_error_handling.1 none (some "k") (Or.inl rfl),
   tracker_construction_error_handling.2.1 "boom" 42 "alice",
   tracker_construction_error_handling.2.2 ⟨"u", "k"⟩ 42 "alice"⟩

/-! ## All-time cost recomputation (`initialize_all_time_cost`) -/

/-- One `usage_history` row (the per-category date-keyed quantity maps). -/
structure UsageHistory where
  chat_tokens : List (String × ℚ)
  transcription_seconds : List (String × ℚ)
  number_images : List (String × ImageVec)
  tts_characters : TtsMap
  vision_tokens : List (String × ℚ)

/-- `sum(d.values())`. -/
def sumValues (m : List (String × ℚ)) : ℚ := (m.map Prod.snd).sum

/-- `[sum(values) for values in zip(*number_images.values())]`: the per-slot
totals of the stored 3-vectors — the empty list when no day is recorded
(`zip()` of nothing). -/
def total_images_vector (number_images : List (String × ImageVec)) : List ℚ :=
  match number_images with
  | [] => []
  | _ => [(number_images.map (fun p => p.2.1)).sum,
          (number_images.map (fun p => p.2.2.1)).sum,
          (number_images.map (fun p => p.2.2.2)).sum]

/-- `UsageTracker.initialize_all_time_cost`: reads the user's history row
and recomputes a total. Token, transcription and vision costs are rounded
*once on the category total*; the image cost dots the per-slot totals with
the parsed price list; the TTS cost zips the model maps *in dictionary
order* against the parsed price list (no lookup by model name) without
rounding. Returns 0 when the row is absent. -/
def initialize_all_time_cost (hist : Option UsageHistory) (tokens_price : ℚ)
    (image_prices : String) (minute_price : ℚ) (vision_token_price : ℚ)
    (tts_prices : String) : ℚ :=
  match hist with
  | none => 0
  | some h =>
    let token_cost := pyRound (sumValues h.chat_tokens * tokens_price / 1000) 6
    let image_cost := (List.zipWith (fun count price => count * price)
        (total_images_vector h.number_images) (parse_price_table image_prices)).sum
    let transcription_cost :=
      pyRound (sumValues h.transcription_seconds * minute_price / 60) 2
    let vision_cost := pyRound (sumValues h.vision_tokens * vision_token_price / 1000) 2
    let tts_cost := (List.zipWith (fun m price => sumValues m.2 * price / 1000)
        h.tts_characters (parse_price_table tts_prices)).sum
    token_cost + image_cost + transcription_cost + vision_cost + tts_cost

/-- Cost charged by one `add_vision_tokens` event (line 295 of `usage.py`):
`round(tokens * vision_token_price / 1000, 2)`. -/
def add_vision_tokens_cost (tokens vision_token_price : ℚ) : ℚ :=
  pyRound (tokens * vision_token_price / 1000) 2

/-- The fixed TTS model ordering of the price table (docstring of
`initialize_all_time_cost`: prices per model `['tts-1', 'tts-1-hd']`). -/
def tts_model_names : List String := ["tts-1", "tts-1-hd"]

/-- Stated from the spec's words, for comparison with the code (§4.3):
"price selected by model name" against the parsed table, in the fixed model
ordering; each model's character total priced and rounded to 2 decimals. -/
def spec_tts_cost_by_name (tts_characters : TtsMap) (prices : List ℚ) : ℚ :=
  (tts_characters.map (fun m =>
    pyRound (sumValues m.2 *
      ((tts_model_names.indexOf? m.1).bind prices.get?).getD 0 / 1000) 2)).sum

theorem parse_price_table_default_tts :
    parse_price_table "0.015,0.030" = [15/1000, 3/100] := by
  have hsplit : splitOnChar ',' "0.015,0.030".data
      = [['0', '.', '0', '1', '5'], ['0', '.', '0', '3', '0']] := by decide
  have h1 : splitOnChar '.' ['0', '.', '0', '1', '5'] = [['0'], ['0', '1', '5']] := by decide
  have h2 : splitOnChar '.' ['0', '.', '0', '3', '0'] = [['0'], ['0', '3', '0']] := by decide
  have d0 : digitsToNat ['0'] = 0 := by decide
  have d015 : digitsToNat ['0', '1', '5'] = 15 := by decide
  have d030 : digitsToNat ['0', '3', '0'] = 30 := by decide
  rw [parse_price_table, hsplit]
  simp only [List.map_cons, List.map_nil, parseDecimal, h1, h2, d0, d015, d030]
  norm_num

/-- A history whose only usage is 1000 TTS characters under `"tts-1-hd"`. -/
def c5HistTts : UsageHistory :=
  { chat_tokens := [], transcription_seconds := [], number_images := [],
    tts_characters := [("tts-1-hd", [("2024-02-01", 1000)])], vision_tokens := [] }

/-- A history whose only usage is 800 vision tokens on one day. -/
def c5HistVision : UsageHistory :=
  { chat_tokens := [], transcription_seconds := [], number_images := [],
    tts_characters := [], vision_tokens := [("2024-02-01", 800)] }

/-- C5 counterexample, refuting both halves of the claim at concrete
inputs. (1) By-name pricing: a history holding only `tts-1-hd` characters
is priced by the code at the *first* table price 0.015 (positional zip),
while pricing by model name gives 0.030. (2) Reproducing the ledger: two
400-token vision events each charge `round(0.004, 2) = 0` so the ledger's
all-time total is 0, but the recomputation prices the 800-token total as
`round(0.008, 2) = 0.01` — per-event rounding is not what the code does,
so it does not reproduce the incrementally-maintained total. -/
theorem initialize_all_time_cost_claim_false :
    (initialize_all_time_cost (some c5HistTts) (2/1000) "0.016,0.018,0.02" (6/1000)
        (1/100) "0.015,0.030" = 15/1000 ∧
      spec_tts_cost_by_name c5HistTts.tts_characters (parse_price_table "0.015,0.030")
        = 3/100 ∧
      (15 : ℚ)/1000 ≠ 3/100) ∧
    ((add_current_costs
        (some (add_current_costs none ⟨2024, 2, 1⟩ (add_vision_tokens_cost 400 (1/100))))
        ⟨2024, 2, 1⟩ (add_vision_tokens_cost 400 (1/100))).all_time = 0 ∧
      initialize_all_time_cost (some c5HistVision) (2/1000) "0.016,0.018,0.02" (6/1000)
        (1/100) "0.015,0.030" = 1/100) := by
  have hvis : add_vision_tokens_cost 400 (1/100) = 0 := by
    rw [add_vision_tokens_cost,
      pyRound_eq_of_lt (v := 2/5) (f := 0) (by norm_num) (by norm_num) (by norm_num)]
    norm_num
  refine ⟨⟨?_, ?_, by norm_num⟩, ⟨?_, ?_⟩⟩
  · simp only [initialize_all_time_cost]
    rw [parse_price_table_default_tts, parse_price_table_default_images]
    simp [c5HistTts, sumValues, total_images_vector, pyRound_zero]
  · rw [parse_price_table_default_tts]
    have hidx : tts_model_names.indexOf? "tts-1-hd" = some 1 := by decide
    simp only [spec_tts_cost_by_name, c5HistTts, hidx, Option.some_bind,
      List.map_cons, List.map_nil, List.sum_cons, List.sum_nil, sumValues,
      List.get?_cons_succ, List.get?_cons_zero, Option.getD_some]
    rw [pyRound_eq_of_lt (v := 3) (f := 3) (by norm_num) (by norm_num) (by norm_num)]
    norm_num
  · rw [hvis]
    simp [add_current_costs]
  · have hv : pyRound ((1 : ℚ)/125) 2 = 1/100 := by
      rw [pyRound_eq_of_gt (v := 4/5) (f := 0) (by norm_num) (by norm_num) (by norm_num)]
      norm_num
    simp only [initialize_all_time_cost]
    rw [parse_price_table_default_tts, parse_price_table_default_images]
    simp [c5HistVision, sumValues, total_images_vector, pyRound_zero]
    norm_num [hv]

/-- Dot product of a day's 3-slot image vector with (a prefix of) a price
list — the per-day image spend under a given price table. -/
def dot3 (v : ImageVec) (prices : List ℚ) : ℚ :=
  match prices with
  | [] => 0
  | [p0] => v.1 * p0
  | [p0, p1] => v.1 * p0 + v.2.1 * p1
  | p0 :: p1 :: p2 :: _ => v.1 * p0 + v.2.1 * p1 + v.2.2 * p2

theorem dot3_zero (prices : List ℚ) : dot3 0 prices = 0 := by
  rcases prices with _ | ⟨p0, _ | ⟨p1, _ | ⟨p2, rest⟩⟩⟩ <;> simp [dot3]

theorem dot3_add (a b : ImageVec) (prices : List ℚ) :
    dot3 (a + b) prices = dot3 a prices + dot3 b prices := by
  rcases prices with _ | ⟨p0, _ | ⟨p1, _ | ⟨p2, rest⟩⟩⟩ <;>
    simp [dot3, Prod.fst_add, Prod.snd_add] <;> ring

theorem sum_map_dot3 (l : List (String × ImageVec)) (prices : List ℚ) :
    (l.map (fun p => dot3 p.2 prices)).sum
      = dot3 ((l.map (fun p => p.2.1)).sum,
              (l.map (fun p => p.2.2.1)).sum,
              (l.map (fun p => p.2.2.2)).sum) prices := by
  induction l with
  | nil => simp [dot3_zero]
  | cons p t ih =>
    simp only [List.map_cons, List.sum_cons, ih]
    rw [← dot3_add]
    rfl

theorem dot3_eq_zipWith (v : ImageVec) (prices : List ℚ) :
    dot3 v prices
      = (List.zipWith (fun count price => count * price) [v.1, v.2.1, v.2.2] prices).sum := by
  rcases prices with _ | ⟨p0, _ | ⟨p1, _ | ⟨p2, rest⟩⟩⟩ <;> simp [dot3, add_assoc]

/-- Summing each day's vector-times-prices equals dotting the per-slot
totals with the prices (the code's `zip(*values)` formulation). -/
theorem image_cost_per_day (number_images : List (String × ImageVec)) (prices : List ℚ) :
    (number_images.map (fun p => dot3 p.2 prices)).sum
      = (List.zipWith (fun count price => count * price)
          (total_images_vector number_images) prices).sum := by
  cases number_images with
  | nil => simp [total_images_vector]
  | cons d ds =>
    rw [sum_map_dot3, dot3_eq_zipWith]
    rfl

/-- The §4.3 category formulas as amended by the code's behaviour: rounding
applied once per category total (6 digits for chat, 2 for transcription and
vision, none for images and TTS), image cost accumulated per recorded day,
and TTS model maps paired *positionally* with the parsed price list. -/
def spec_amended_all_time_cost (hist : Option UsageHistory) (tokens_price : ℚ)
    (image_prices : String) (minute_price : ℚ) (vision_token_price : ℚ)
    (tts_prices : String) : ℚ :=
  match hist with
  | none => 0
  | some h =>
      pyRound (sumValues h.chat_tokens * tokens_price / 1000) 6
      + (h.number_images.map (fun p => dot3 p.2 (parse_price_table image_prices))).sum
      + pyRound (sumValues h.transcription_seconds * minute_price / 60) 2
      + pyRound (sumValues h.vision_tokens * vision_token_price / 1000) 2
      + (List.zipWith (fun m price => sumValues m.2 * price / 1000)
          h.tts_characters (parse_price_table tts_prices)).sum

/-- C5 (amended): the recomputation returns the sum of the category costs
with rounding applied once per category total and TTS priced positionally
in history order; equivalently, the per-day image formulation of §4.3
agrees with the code's per-slot-total formulation. The operation reads
only the history row (its model is a pure function of it) and returns 0
when the row is absent. -/
theorem initialize_all_time_cost_characterization (hist : Option UsageHistory)
    (tokens_price : ℚ) (image_prices : String) (minute_price : ℚ)
    (vision_token_price : ℚ) (tts_prices : String) :
    initialize_all_time_cost hist tokens_price image_prices minute_price
        vision_token_price tts_prices
      = spec_amended_all_time_cost hist tokens_price image_prices minute_price
          vision_token_price tts_prices := by
  rcases hist with _ | h
  · rfl
  · simp only [initialize_all_time_cost, spec_amended_all_time_cost,
      image_cost_per_day]

end UsageSpec
